import Mathlib

/-!
Shallow embedding of the client-side event-collection pipeline of the
websim repository (`src/frontend/src/hooks/useExperimentLogger.ts` and
`src/frontend/src/lib/loggerApi.ts`), together with proofs of the
behavioural properties stated about it.

JavaScript numbers are modelled as rationals (`ℚ`), millisecond
timestamps as integers, and the DOM / clock / entropy environment is
passed explicitly as data carried by each event.  `Math.round` is
modelled by Mathlib's `round` (both round half toward positive
infinity) and `Number(x.toFixed(2))` by rounding at two decimal
places.
-/

namespace WebSim

/-! ## JS value helpers -/

/-- A value stored in the open `meta` bag of an event record
(`Record<string, unknown>` in the source). -/
inductive MetaVal
  | str (s : String)
  | int (n : Int)
  | rat (q : ℚ)
  | bool (b : Bool)
  | undefVal
  deriving Repr, DecidableEq

/-- The `meta` object: string-keyed fields in enumeration order. -/
abbrev Meta := List (String × MetaVal)

/-- Property lookup on a JS object modelled as a key-value list. -/
def metaLookup (m : Meta) (k : String) : Option MetaVal :=
  (m.find? (fun kv => kv.1 == k)).map (·.2)

/-- JS object spread `{ ...defaults, ...overrides }`: every key of
`defaults` appears in order, its value replaced by the override when
the key collides; keys present only in `overrides` follow. -/
def jsSpread (defaults overrides : Meta) : Meta :=
  match defaults with
  | [] => overrides
  | kv :: d =>
    (kv.1, (metaLookup overrides kv.1).getD kv.2) ::
      jsSpread d (overrides.filter (fun kv2 => !(kv2.1 == kv.1)))

/-- JS `a || b` on numbers (0 is falsy; `NaN` is outside the model). -/
def jsOrQ (a b : ℚ) : ℚ := if a = 0 then b else a

/-- JS `a || b` on strings (the empty string is falsy). -/
def jsOrS (a b : String) : String := if a = "" then b else a

/-- JS truthiness of a possibly-undefined string. -/
def jsTruthyS : Option String → Bool
  | none => false
  | some s => !(s == "")

/-- JS `a || b` where both operands are possibly-undefined strings. -/
def jsOrO (a b : Option String) : Option String :=
  if jsTruthyS a then a else b

/-- `Math.round`, i.e. rounding half toward positive infinity. -/
def jsRound (q : ℚ) : Int := round q

/-- `Number(x.toFixed(2))`: the value rounded at two decimal places. -/
def round2 (q : ℚ) : ℚ := ((round (q * 100) : ℤ) : ℚ) / 100

/-- `s.slice(0, n)` on a string. -/
def jsSlice (s : String) (n : Nat) : String := ⟨s.toList.take n⟩

/-- One maximal run of whitespace becomes a single space: the effect of
`replace(/\s+/g, ' ')` on the character list. -/
def collapseWs : List Char → List Char
  | [] => []
  | [c] => if c.isWhitespace then [' '] else [c]
  | c :: d :: rest =>
    if c.isWhitespace && d.isWhitespace then collapseWs (d :: rest)
    else (if c.isWhitespace then ' ' else c) :: collapseWs (d :: rest)

/-- `rawText.replace(/\s+/g, ' ')`. -/
def jsCollapseWs (s : String) : String := ⟨collapseWs s.toList⟩

/-! ## Metrics Extractor (`getScrollMetrics`, `extractTargetMeta`) -/

/-- The DOM quantities read by `getScrollMetrics` at call time. -/
structure DomView where
  rootScrollTop : ℚ
  bodyScrollTop : ℚ
  rootScrollHeight : ℚ
  bodyScrollHeight : ℚ
  rootClientHeight : ℚ
  innerHeight : ℚ
  deriving Repr, DecidableEq

structure ScrollMetrics where
  scrollTop : ℚ
  scrollHeight : ℚ
  clientHeight : ℚ
  maxScrollable : ℚ
  depthPct : ℚ
  deriving Repr, DecidableEq

/-- `getScrollMetrics` from `useExperimentLogger.ts` (lines 12-21). -/
def getScrollMetrics (d : DomView) : ScrollMetrics :=
  let scrollTop := jsOrQ d.rootScrollTop (jsOrQ d.bodyScrollTop 0)
  let scrollHeight := max (max d.rootScrollHeight d.bodyScrollHeight) 1
  let clientHeight := max (max d.rootClientHeight d.innerHeight) 1
  let maxScrollable := max (scrollHeight - clientHeight) 1
  let depthPct := min 100 (max 0 (scrollTop / maxScrollable * 100))
  ⟨scrollTop, scrollHeight, clientHeight, maxScrollable, depthPct⟩

/-- The element found by `el.closest('[data-track]')`: it matched the
selector, so the `data-track` attribute exists (possibly empty). -/
structure TrackedEl where
  dataTrack : String
  dataTrackId : Option String
  id : String
  tagName : String
  className : String
  textContent : String
  deriving Repr, DecidableEq

/-- A DOM element as read by `extractTargetMeta`. -/
structure JsElement where
  id : String
  tagName : String
  className : String
  textContent : String
  closestTracked : Option TrackedEl
  deriving Repr, DecidableEq

/-- An `EventTarget | null`: null, a non-`Element` target (e.g. the
document), or an element. -/
inductive JsEventTarget
  | nullTarget
  | nonElement
  | element (e : JsElement)
  deriving Repr, DecidableEq

structure TargetMeta where
  action : String
  targetId : Option String
  tag : String
  className : String
  textSample : String
  deriving Repr, DecidableEq

/-- `extractTargetMeta` from `useExperimentLogger.ts` (lines 23-35). -/
def extractTargetMeta (target : JsEventTarget) : TargetMeta :=
  let el : Option JsElement :=
    match target with
    | .element e => some e
    | _ => none
  let tracked : Option TrackedEl := el.bind (·.closestTracked)
  let rawText : String :=
    (jsOrO (tracked.map (·.textContent)) (el.map (·.textContent))).getD ""
  { action :=
      match tracked with
      | some tr => jsOrS tr.dataTrack "dom_click"
      | none => "dom_click"
    targetId :=
      let t := jsOrO (tracked.bind (·.dataTrackId))
        (jsOrO (tracked.map (·.id)) (el.map (·.id)))
      if jsTruthyS t then t else none
    tag := ((jsOrO (tracked.map (·.tagName)) (el.map (·.tagName))).getD "").toLower
    className :=
      jsSlice ((jsOrO (tracked.map (·.className)) (el.map (·.className))).getD "") 120
    textSample := jsSlice (jsCollapseWs rawText) 50 }

/-! ## Data model (`EventPayload`, `LoggerConfig`) -/

/-- The closed set of `event` values (`EventName` in
`types/experiment.ts`). -/
inductive EventName
  | page_enter | page_exit | scroll | click | heartbeat
  | touch_start | touch_move | touch_end
  | visibility_change | focus | blur | input | route_update
  deriving Repr, DecidableEq

/-- `EventPayload` from `types/experiment.ts`. -/
structure EventPayload where
  seq : Nat
  timestamp : Int
  event : EventName
  page : String
  pageSessionId : String
  sessionId : String
  condition : String
  participantId : String
  dwellMs : Option Int := none
  depth : Option String := none
  action : Option String := none
  targetId : Option String := none
  meta : Meta := []
  deriving Repr, DecidableEq

structure UserProfile where
  age : Int
  occupation : String
  deriving Repr, DecidableEq

/-- `LoggerConfig`: the configuration object supplied at mount. -/
structure LoggerConfig where
  pageId : String
  condition : String
  participantId : String
  userProfile : Option UserProfile
  deriving Repr, DecidableEq

/-! ## Mutable state of one mounted hook instance

One field per `useRef` of `useExperimentLogger`, plus `inFlight`: the
local `batch` variable of a `flush` invocation suspended at
`await sendEvents(batch)` (the code keeps it in the coroutine frame;
the model must keep it explicitly). -/

structure MutState where
  sessionId : String
  pageSessionId : String
  enterAt : Int
  hiddenAt : Option Int
  maxDepth : ℚ
  seq : Nat
  queue : List EventPayload
  lastScrollTop : ℚ
  lastScrollTs : Int
  flushing : Bool
  inFlight : Option (List EventPayload)
  deriving Repr, DecidableEq

/-- `` `pg_${Date.now()}_${rand}` ``: the fresh page-session identifier,
with the clock reading and the random suffix as explicit entropy. -/
def mkPageSessionId (nowMs : Nat) (rand : String) : String :=
  "pg_" ++ toString nowMs ++ "_" ++ rand

/-- The session-identifier initialisation (lines 50-59): read the
per-tab storage cell; if absent, store a freshly generated identifier.
Returns the chosen identifier and the storage cell afterwards. -/
def initSessionId (storage : Option String) (fresh : String) :
    String × Option String :=
  match storage with
  | some existing => (existing, some existing)
  | none => (fresh, some fresh)

/-- Ref initialisation at the first render of the hook (lines 38-61).
`freshSession` and `freshPage` are the identifiers that
`` `s_${Date.now()}_...` `` and `` `pg_${Date.now()}_...` `` would
generate.  Returns the initial state and the storage cell afterwards. -/
def initState (storage : Option String) (freshSession freshPage : String)
    (hookNow : Int) : MutState × Option String :=
  let p := initSessionId storage freshSession
  ({ sessionId := p.1
     pageSessionId := freshPage
     enterAt := hookNow
     hiddenAt := none
     maxDepth := 0
     seq := 0
     queue := []
     lastScrollTop := 0
     lastScrollTs := hookNow
     flushing := false
     inFlight := none }, p.2)

/-! ## `push` -/

/-- The argument object of a `push` call: the caller-supplied fields of
the record. -/
structure PartialEvent where
  event : EventName
  timestamp : Option Int := none
  dwellMs : Option Int := none
  depth : Option String := none
  action : Option String := none
  targetId : Option String := none
  meta : Meta := []
  deriving Repr, DecidableEq

/-- `userProfile?.age` as a meta value. -/
def ageVal : Option UserProfile → MetaVal
  | some pr => .int pr.age
  | none => .undefVal

/-- `userProfile?.occupation` as a meta value. -/
def occVal : Option UserProfile → MetaVal
  | some pr => .str pr.occupation
  | none => .undefVal

/-- The default meta fields `{ age, occupation, visibility }` that
`push` lays under the event-specific meta. -/
def pushDefaults (prof : Option UserProfile) (vis : String) : Meta :=
  [("age", ageVal prof), ("occupation", occVal prof),
   ("visibility", .str vis)]

/-- The record constructed by `push` (lines 63-81); `now` is
`Date.now()` and `vis` is `document.visibilityState` at call time. -/
def pushRecord (cfg : LoggerConfig) (now : Int) (vis : String)
    (s : MutState) (p : PartialEvent) : EventPayload :=
  { seq := s.seq + 1
    timestamp := p.timestamp.getD now
    event := p.event
    page := cfg.pageId
    pageSessionId := s.pageSessionId
    sessionId := s.sessionId
    condition := cfg.condition
    participantId := cfg.participantId
    dwellMs := p.dwellMs
    depth := p.depth
    action := p.action
    targetId := p.targetId
    meta := jsSpread (pushDefaults cfg.userProfile vis) p.meta }

/-- `push`: bump `seqRef` and append the constructed record to the
queue.  Paired with the one record it created. -/
def pushP (cfg : LoggerConfig) (now : Int) (vis : String) (s : MutState)
    (p : PartialEvent) : MutState × List EventPayload :=
  ({ s with seq := s.seq + 1
            queue := s.queue ++ [pushRecord cfg now vis s p] },
   [pushRecord cfg now vis s p])

/-- `` `${q.toFixed(2)}%` ``: the percentage string of a depth value. -/
def fmtPct (q : ℚ) : String := toString (round2 q) ++ "%"

/-! ## Listener handlers -/

/-- Clock and visibility readings at the moment a handler runs. -/
structure EnvNow where
  now : Int
  vis : String
  deriving Repr, DecidableEq

/-- `onScroll` (lines 98-120). -/
def onScroll (cfg : LoggerConfig) (env : EnvNow) (dom : DomView)
    (s : MutState) : MutState × List EventPayload :=
  let m := getScrollMetrics dom
  let deltaY := m.scrollTop - s.lastScrollTop
  let deltaT : Int := max (env.now - s.lastScrollTs) 1
  let velocityPxPerSec := deltaY / (deltaT : ℚ) * 1000
  let s1 := { s with maxDepth := max s.maxDepth m.depthPct
                     lastScrollTop := m.scrollTop
                     lastScrollTs := env.now }
  pushP cfg env.now env.vis s1
    { event := .scroll
      depth := some (fmtPct m.depthPct)
      meta := [("scrollTop", .int (jsRound m.scrollTop)),
               ("scrollHeight", .rat m.scrollHeight),
               ("clientHeight", .rat m.clientHeight),
               ("deltaY", .int (jsRound deltaY)),
               ("velocityPxPerSec", .rat (round2 velocityPxPerSec)),
               ("maxDepthPct", .rat (round2 s1.maxDepth))] }

/-- `targetMeta` spread into a meta object, as in `onClick`. -/
def targetMetaAsMeta (tm : TargetMeta) : Meta :=
  [("action", .str tm.action),
   ("targetId", match tm.targetId with | some t => .str t | none => .undefVal),
   ("tag", .str tm.tag),
   ("className", .str tm.className),
   ("textSample", .str tm.textSample)]

/-- `onClick` (lines 122-134). -/
def onClick (cfg : LoggerConfig) (env : EnvNow) (x y : ℚ)
    (target : JsEventTarget) (s : MutState) : MutState × List EventPayload :=
  let tm := extractTargetMeta target
  pushP cfg env.now env.vis s
    { event := .click
      action := some tm.action
      targetId := tm.targetId
      meta := jsSpread [("x", .int (jsRound x)), ("y", .int (jsRound y))]
        (targetMetaAsMeta tm) }

/-- The three touch handlers (lines 136-173); they differ only in the
event name.  `touch` is `e.changedTouches[0]` (client coordinates) and
is absent when the `changedTouches` list is empty. -/
def onTouch (cfg : LoggerConfig) (name : EventName) (env : EnvNow)
    (touch : Option (ℚ × ℚ)) (touchCount : Nat) (s : MutState) :
    MutState × List EventPayload :=
  match touch with
  | none => (s, [])
  | some (x, y) =>
    pushP cfg env.now env.vis s
      { event := name
        meta := [("x", .int (jsRound x)), ("y", .int (jsRound y)),
                 ("touchCount", .int touchCount)] }

/-- `onVisibilityChange` (lines 175-188); `env.vis` is the new
visibility state. -/
def onVisibilityChange (cfg : LoggerConfig) (env : EnvNow) (s : MutState) :
    MutState × List EventPayload :=
  let hidden := env.vis == "hidden"
  let s1 := { s with hiddenAt := if hidden then some env.now else s.hiddenAt }
  let dur : Int :=
    if hidden then 0
    else
      match s1.hiddenAt with
      | some h => if h = 0 then 0 else env.now - h
      | none => 0
  pushP cfg env.now env.vis s1
    { event := .visibility_change
      meta := [("state", .str env.vis), ("hiddenDurationMs", .int dur)] }

/-- `onFocus` / `onBlur` (lines 190-191). -/
def onFocusBlur (cfg : LoggerConfig) (name : EventName) (env : EnvNow)
    (s : MutState) : MutState × List EventPayload :=
  pushP cfg env.now env.vis s { event := name }

/-- The fields of an input element read by `onInput`.  `value` is
`none` when `target.value` is not a string. -/
structure InputTarget where
  id : String
  name : String
  dataTrack : Option String
  value : Option String
  fieldType : String
  deriving Repr, DecidableEq

/-- `onInput` (lines 193-206). -/
def onInput (cfg : LoggerConfig) (env : EnvNow)
    (target : Option InputTarget) (s : MutState) :
    MutState × List EventPayload :=
  match target with
  | none => (s, [])
  | some t =>
    let value := t.value.getD ""
    let tid :=
      let u := jsOrO (some t.id) (jsOrO (some t.name) t.dataTrack)
      if jsTruthyS u then u else none
    pushP cfg env.now env.vis s
      { event := .input
        action := some "input_change"
        targetId := tid
        meta := [("fieldType", .str (jsOrS t.fieldType "text")),
                 ("valueLength", .int value.length)] }

/-- `onPopState` (lines 208-213). -/
def onPopState (cfg : LoggerConfig) (env : EnvNow) (url : String)
    (s : MutState) : MutState × List EventPayload :=
  pushP cfg env.now env.vis s
    { event := .route_update, meta := [("url", .str url)] }

/-- One tick of the 100 ms sampler (lines 226-242). -/
def onHeartbeat (cfg : LoggerConfig) (env : EnvNow) (dom : DomView)
    (online : Bool) (s : MutState) : MutState × List EventPayload :=
  let m := getScrollMetrics dom
  let s1 := { s with maxDepth := max s.maxDepth m.depthPct }
  pushP cfg env.now env.vis s1
    { event := .heartbeat
      depth := some (fmtPct m.depthPct)
      meta := [("scrollTop", .int (jsRound m.scrollTop)),
               ("scrollHeight", .rat m.scrollHeight),
               ("clientHeight", .rat m.clientHeight),
               ("maxDepthPct", .rat (round2 s1.maxDepth)),
               ("activeMs", .int (env.now - s.enterAt)),
               ("online", .bool online)] }

/-! ## Flush Scheduler and Delivery Transport -/

/-- How one call of `sendEvents` (loggerApi.ts) ends: the `fetch`
promise resolves with a success status, resolves with a non-success
status, or rejects (network error / thrown exception). -/
inductive DeliveryOutcome
  | resolvedOk
  | resolvedHttpError
  | rejected
  deriving Repr, DecidableEq

/-- Whether `await sendEvents(batch)` throws.  `sendEvents` merely
awaits `fetch` without inspecting `response.ok`, so only a rejected
promise throws; a non-success HTTP response does not. -/
def sendEventsThrows : DeliveryOutcome → Bool
  | .rejected => true
  | _ => false

/-- The synchronous first phase of `flush` (lines 244-249), run up to
the `await`: the single-flight guard, the drain
(`splice(0, length)`), the empty check, and setting the guard. -/
def flushStart (s : MutState) : MutState :=
  if s.flushing then s
  else
    let batch := s.queue
    if batch.isEmpty then { s with queue := [] }
    else { s with queue := [], flushing := true, inFlight := some batch }

/-- The second phase of `flush` (lines 250-256), run when the awaited
send settles: requeue the batch at the front (`unshift(...batch)`) if
the send threw, then clear the guard. -/
def flushEnd (outcome : DeliveryOutcome) (s : MutState) : MutState :=
  match s.inFlight with
  | none => s
  | some batch =>
    let s1 := if sendEventsThrows outcome
      then { s with queue := batch ++ s.queue }
      else s
    { s1 with flushing := false, inFlight := none }

/-! ## Unload Guard -/

/-- The synthetic `page_exit` record built by `handleUnload`
(lines 265-281). -/
def syntheticExit (cfg : LoggerConfig) (now : Int) (s : MutState) :
    EventPayload :=
  { seq := s.seq + 1
    timestamp := now
    event := .page_exit
    page := cfg.pageId
    pageSessionId := s.pageSessionId
    sessionId := s.sessionId
    condition := cfg.condition
    participantId := cfg.participantId
    dwellMs := some (now - s.enterAt)
    depth := some (fmtPct s.maxDepth)
    meta := [("age", ageVal cfg.userProfile),
             ("occupation", occVal cfg.userProfile)] }

/-- `handleUnload` (lines 263-287): build the synthetic exit record,
concatenate it in front of the pending queue, hand the whole list to
the single `navigator.sendBeacon` call, and clear the queue.  The
second component is the payload of that one beacon send. -/
def handleUnload (cfg : LoggerConfig) (now : Int) (s : MutState) :
    MutState × List EventPayload :=
  let payloads := syntheticExit cfg now s :: s.queue
  ({ s with seq := s.seq + 1, queue := [] }, payloads)

/-! ## The event machine -/

/-- One occurrence the mounted instance reacts to, carrying the
environment readings (clock, visibility, DOM, entropy) the
corresponding handler would observe. -/
inductive BEvent
  | scrollEv (env : EnvNow) (dom : DomView)
  | clickEv (env : EnvNow) (x y : ℚ) (target : JsEventTarget)
  | touchStartEv (env : EnvNow) (touch : Option (ℚ × ℚ)) (touchCount : Nat)
  | touchMoveEv (env : EnvNow) (touch : Option (ℚ × ℚ)) (touchCount : Nat)
  | touchEndEv (env : EnvNow) (touch : Option (ℚ × ℚ)) (touchCount : Nat)
  | visibilityEv (env : EnvNow)
  | focusEv (env : EnvNow)
  | blurEv (env : EnvNow)
  | inputEv (env : EnvNow) (target : Option InputTarget)
  | popStateEv (env : EnvNow) (url : String)
  | heartbeatEv (env : EnvNow) (dom : DomView) (online : Bool)
  | flushTick
  | flushDone (outcome : DeliveryOutcome)
  | unloadEv (env : EnvNow)
  | teardownEv (env : EnvNow)
  deriving Repr, DecidableEq

/-- Dispatch one occurrence; returns the successor state and the
records created (in creation order) during it.  `teardownEv` is the
effect cleanup (lines 292-317): a final `page_exit` push followed by a
best-effort `flush()`, whose synchronous phase runs immediately. -/
def step (cfg : LoggerConfig) (s : MutState) : BEvent →
    MutState × List EventPayload
  | .scrollEv env dom => onScroll cfg env dom s
  | .clickEv env x y target => onClick cfg env x y target s
  | .touchStartEv env touch n => onTouch cfg .touch_start env touch n s
  | .touchMoveEv env touch n => onTouch cfg .touch_move env touch n s
  | .touchEndEv env touch n => onTouch cfg .touch_end env touch n s
  | .visibilityEv env => onVisibilityChange cfg env s
  | .focusEv env => onFocusBlur cfg .focus env s
  | .blurEv env => onFocusBlur cfg .blur env s
  | .inputEv env target => onInput cfg env target s
  | .popStateEv env url => onPopState cfg env url s
  | .heartbeatEv env dom online => onHeartbeat cfg env dom online s
  | .flushTick => (flushStart s, [])
  | .flushDone outcome => (flushEnd outcome s, [])
  | .unloadEv env =>
    ((handleUnload cfg env.now s).1, [syntheticExit cfg env.now s])
  | .teardownEv env =>
    let (s1, recs) := pushP cfg env.now env.vis s
      { event := .page_exit
        timestamp := some env.now
        dwellMs := some (env.now - s.enterAt)
        depth := some (fmtPct s.maxDepth) }
    (flushStart s1, recs)

/-- Run a sequence of occurrences, concatenating the created records. -/
def run (cfg : LoggerConfig) (s : MutState) :
    List BEvent → MutState × List EventPayload
  | [] => (s, [])
  | e :: es =>
    let (s1, recs) := step cfg s e
    let (s2, recs') := run cfg s1 es
    (s2, recs ++ recs')

/-- Environment readings consumed by the mount effect (lines 83-96). -/
structure MountEnv where
  now : Int
  vis : String
  dom : DomView
  url : String
  userAgent : String
  viewport : String
  deriving Repr, DecidableEq

/-- The mount effect body: record the entry time, seed the running
maximum depth from the initial metrics, and push `page_enter`. -/
def mount (cfg : LoggerConfig) (menv : MountEnv) (s : MutState) :
    MutState × List EventPayload :=
  let m := getScrollMetrics menv.dom
  let s1 := { s with enterAt := menv.now, maxDepth := m.depthPct }
  pushP cfg menv.now menv.vis s1
    { event := .page_enter
      depth := some (fmtPct m.depthPct)
      meta := [("url", .str menv.url),
               ("userAgent", .str menv.userAgent),
               ("viewport", .str menv.viewport)] }

/-- One whole mounted lifetime: ref initialisation, the mount effect,
then an arbitrary sequence of occurrences.  The second component is
every record the instance ever created, in creation order. -/
def lifecycle (cfg : LoggerConfig) (storage : Option String)
    (freshSession freshPage : String) (menv : MountEnv)
    (events : List BEvent) : MutState × List EventPayload :=
  let s0 := (initState storage freshSession freshPage menv.now).1
  let m := mount cfg menv s0
  let r := run cfg m.1 events
  (r.1, m.2 ++ r.2)

/-! ## Derived predicates and sample data -/

/-- No two adjacent characters of the string are whitespace: what
remains invariantly true of text whose whitespace runs were collapsed. -/
def WsCollapsed (s : String) : Prop :=
  List.Chain' (fun a b => ¬(a.isWhitespace = true ∧ b.isWhitespace = true))
    s.toList

/-- The `meta.maxDepthPct` values of a record list, in order. -/
def maxDepthVals (recs : List EventPayload) : List ℚ :=
  recs.filterMap (fun r =>
    match metaLookup r.meta "maxDepthPct" with
    | some (.rat q) => some q
    | _ => none)

/-- Occurrences other than a delivery completion and the Unload Guard:
the ones that can run between a drain and its requeue without touching
the drained batch. -/
def noDrain : BEvent → Bool
  | .flushDone _ => false
  | .unloadEv _ => false
  | _ => true

/-- A concrete configuration used to instantiate proved statements. -/
def sampleCfg : LoggerConfig :=
  { pageId := "login", condition := "prelogin", participantId := "p001"
    userProfile := some { age := 30, occupation := "student" } }

/-- A concrete queued record. -/
def sampleRecord : EventPayload :=
  { seq := 1, timestamp := 0, event := .focus, page := "login"
    pageSessionId := "pg_1_a", sessionId := "s_1_a"
    condition := "prelogin", participantId := "p001" }

/-- A concrete instance state holding one pending record. -/
def sampleQueued : MutState :=
  { sessionId := "s_1_a", pageSessionId := "pg_1_a", enterAt := 0
    hiddenAt := none, maxDepth := 0, seq := 1, queue := [sampleRecord]
    lastScrollTop := 0, lastScrollTs := 0, flushing := false
    inFlight := none }

/-- A concrete occurrence list: one focus event. -/
def sampleEvents : List BEvent := [.focusEv ⟨5, "visible"⟩]

/-- A concrete DOM reading. -/
def sampleDom : DomView :=
  { rootScrollTop := 0, bodyScrollTop := 0, rootScrollHeight := 800
    bodyScrollHeight := 800, rootClientHeight := 600, innerHeight := 600 }

/-- A concrete mount environment. -/
def sampleMountEnv : MountEnv :=
  { now := 0, vis := "visible", dom := sampleDom
    url := "http://localhost/", userAgent := "ua", viewport := "390x844" }

end WebSim

namespace WebSim

/-! ## Generic lemmas about the embedded helpers -/

theorem round2_mono {a b : ℚ} (h : a ≤ b) : round2 a ≤ round2 b := by
  unfold round2
  have h1 : round (a * 100) ≤ round (b * 100) := by
    rw [round_eq, round_eq]
    exact Int.floor_le_floor (by linarith)
  have h2 : ((round (a * 100) : ℤ) : ℚ) ≤ ((round (b * 100) : ℤ) : ℚ) := by
    exact_mod_cast h1
  linarith

theorem collapseWs_cons_not_ws (d : Char) (rest : List Char)
    (h : d.isWhitespace = false) : ∃ t, collapseWs (d :: rest) = d :: t := by
  cases rest with
  | nil => exact ⟨[], by simp [collapseWs, h]⟩
  | cons e r => exact ⟨collapseWs (e :: r), by simp [collapseWs, h]⟩

theorem chain'_collapseWs : ∀ l : List Char,
    List.Chain' (fun a b => ¬(a.isWhitespace = true ∧ b.isWhitespace = true))
      (collapseWs l)
  | [] => by simp [collapseWs]
  | [c] => by
    by_cases hc : c.isWhitespace = true <;> simp [collapseWs, hc]
  | c :: d :: rest => by
    have ih := chain'_collapseWs (d :: rest)
    by_cases hc : c.isWhitespace = true
    · by_cases hd : d.isWhitespace = true
      · simpa [collapseWs, hc, hd] using ih
      · obtain ⟨t, ht⟩ := collapseWs_cons_not_ws d rest
          (by simpa using hd)
        rw [show collapseWs (c :: d :: rest)
            = ' ' :: collapseWs (d :: rest) by simp [collapseWs, hc, hd]]
        rw [ht] at ih ⊢
        exact List.chain'_cons.mpr ⟨by simp [hd], ih⟩
    · rw [show collapseWs (c :: d :: rest)
          = c :: collapseWs (d :: rest) by simp [collapseWs, hc]]
      exact List.chain'_cons'.mpr ⟨fun y _ => by simp [hc], ih⟩

theorem metaLookup_cons (kv : String × MetaVal) (m : Meta) (k : String) :
    metaLookup (kv :: m) k =
      if (kv.1 == k) then some kv.2 else metaLookup m k := by
  by_cases h : (kv.1 == k) <;> simp [metaLookup, List.find?_cons, h]

theorem strBeq_comm (a b : String) : (a == b) = (b == a) := by
  rcases h1 : (a == b) with _ | _ <;> rcases h2 : (b == a) with _ | _ <;>
    simp_all [beq_iff_eq]

theorem metaLookup_filter_ne (o : Meta) (a k : String)
    (h : (k == a) = false) :
    metaLookup (o.filter (fun kv2 => !(kv2.1 == a))) k = metaLookup o k := by
  induction o with
  | nil => rfl
  | cons kv o ih =>
    rw [List.filter_cons]
    rcases ha : (kv.1 == a) with _ | _
    · simp [metaLookup_cons, ih]
    · have hak : (kv.1 == k) = false := by
        rcases hkv : (kv.1 == k) with _ | _
        · rfl
        · have h1 : kv.1 = a := beq_iff_eq.mp ha
          have h2 : kv.1 = k := beq_iff_eq.mp hkv
          rw [← h2, h1] at h
          simp at h
      simp only [Bool.not_true]
      rw [if_neg (by simp), ih, metaLookup_cons, if_neg (by simp [hak])]

/-- Lookup on a JS spread: an overriding key wins, everything else
falls back to the defaults. -/
theorem metaLookup_jsSpread (d : Meta) : ∀ (o : Meta) (k : String),
    metaLookup (jsSpread d o) k = (metaLookup o k).or (metaLookup d k) := by
  induction d with
  | nil =>
    intro o k
    rw [jsSpread, show metaLookup [] k = none from rfl, Option.or_none]
  | cons kv d ih =>
    intro o k
    rcases hk : (kv.1 == k) with _ | _
    · rw [jsSpread, metaLookup_cons, if_neg (by simp [hk]),
        metaLookup_cons, if_neg (by simp [hk]), ih,
        metaLookup_filter_ne o kv.1 k (by rw [strBeq_comm]; exact hk)]
    · have hkk : kv.1 = k := beq_iff_eq.mp hk
      rw [jsSpread, metaLookup_cons, if_pos hk, metaLookup_cons, if_pos hk,
        hkk]
      cases h : metaLookup o k <;> simp [h]

theorem metaLookup_nil (k : String) : metaLookup [] k = none := rfl

/-- Lookup on a record built by `push`: the event-specific meta wins,
the `push` defaults fill the rest. -/
theorem metaLookup_pushRecord (cfg : LoggerConfig) (now : Int)
    (vis : String) (s : MutState) (p : PartialEvent) (k : String) :
    metaLookup (pushRecord cfg now vis s p).meta k =
      (metaLookup p.meta k).or
        (metaLookup (pushDefaults cfg.userProfile vis) k) :=
  metaLookup_jsSpread _ _ _

/-! ## C5 — scroll-depth clamping -/

/-- C5: for every DOM state readable at call time, `getScrollMetrics`
returns `depthPct = clamp(0, 100, scrollTop / max(scrollHeight -
clientHeight, 1) * 100)`; the denominator is never zero and the result
lies in `[0, 100]` (the degenerate `scrollHeight = clientHeight` case
is included, the quantification being over all DOM states). -/
theorem scrollMetrics_depth_clamped (d : DomView) :
    (getScrollMetrics d).depthPct =
      min 100 (max 0 ((getScrollMetrics d).scrollTop /
        max ((getScrollMetrics d).scrollHeight -
          (getScrollMetrics d).clientHeight) 1 * 100)) ∧
    max ((getScrollMetrics d).scrollHeight -
      (getScrollMetrics d).clientHeight) 1 ≠ 0 ∧
    0 ≤ (getScrollMetrics d).depthPct ∧
    (getScrollMetrics d).depthPct ≤ 100 := by
  refine ⟨rfl, ?_, ?_, ?_⟩
  · exact ne_of_gt (lt_of_lt_of_le zero_lt_one (le_max_right _ 1))
  · exact le_min (by norm_num) (le_max_left 0 _)
  · exact min_le_left _ _

/-! ## C9 — totality and bounds of `extractTargetMeta` -/

/-- C9: `extractTargetMeta` is total: a null or non-`Element` target
yields the defaults (`action = "dom_click"`, no target id, empty tag,
class name and text sample); for every target the class name is at
most 120 characters and the text sample is whitespace-collapsed and at
most 50 characters. -/
theorem extractTargetMeta_total :
    extractTargetMeta .nullTarget =
      ⟨"dom_click", none, "", "", ""⟩ ∧
    extractTargetMeta .nonElement =
      ⟨"dom_click", none, "", "", ""⟩ ∧
    ∀ t : JsEventTarget,
      (extractTargetMeta t).className.length ≤ 120 ∧
      (extractTargetMeta t).textSample.length ≤ 50 ∧
      WsCollapsed (extractTargetMeta t).textSample := by
  have hnull : ∀ t, t = JsEventTarget.nullTarget ∨ t = JsEventTarget.nonElement →
      extractTargetMeta t = ⟨"dom_click", none, "", "", ""⟩ := by
    rintro t (rfl | rfl) <;>
      simp [extractTargetMeta, jsOrO, jsTruthyS, jsSlice, jsCollapseWs,
        collapseWs, String.toLower, String.map_eq]
  refine ⟨hnull _ (Or.inl rfl), hnull _ (Or.inr rfl), fun t => ⟨?_, ?_, ?_⟩⟩
  · show (jsSlice _ 120).length ≤ 120
    rw [jsSlice, String.length_mk]
    exact le_of_eq_of_le (List.length_take 120 _) (min_le_left _ _)
  · show (jsSlice _ 50).length ≤ 50
    rw [jsSlice, String.length_mk]
    exact le_of_eq_of_le (List.length_take 50 _) (min_le_left _ _)
  · show WsCollapsed (jsSlice (jsCollapseWs _) 50)
    unfold WsCollapsed jsSlice jsCollapseWs
    exact List.Chain'.take (chain'_collapseWs _) 50

/-! ## C10 — meta defaults of `push` and the Unload Guard exception -/

/-- C10: every record constructed via `push` carries a meta object in
which any key absent from the event-specific meta falls back to the
defaults `age` / `occupation` / `visibility`; in particular
`visibility` holds the current page-visibility state, and `age` and
`occupation` hold the viewer profile when known, unless the
event-specific meta overrides them.  The Unload Guard's synthetic
`page_exit` instead carries only `age` and `occupation` and no
`visibility` field. -/
theorem push_meta_visibility (cfg : LoggerConfig) (now : Int)
    (vis : String) (s : MutState) (p : PartialEvent) :
    (∀ k, metaLookup (pushRecord cfg now vis s p).meta k =
      (metaLookup p.meta k).or
        (metaLookup (pushDefaults cfg.userProfile vis) k)) ∧
    (metaLookup p.meta "visibility" = none →
      metaLookup (pushRecord cfg now vis s p).meta "visibility" =
        some (.str vis)) ∧
    (∀ pr, cfg.userProfile = some pr → metaLookup p.meta "age" = none →
      metaLookup (pushRecord cfg now vis s p).meta "age" =
        some (.int pr.age)) ∧
    (∀ pr, cfg.userProfile = some pr →
      metaLookup p.meta "occupation" = none →
      metaLookup (pushRecord cfg now vis s p).meta "occupation" =
        some (.str pr.occupation)) ∧
    (syntheticExit cfg now s).meta =
      [("age", ageVal cfg.userProfile),
       ("occupation", occVal cfg.userProfile)] ∧
    metaLookup (syntheticExit cfg now s).meta "visibility" = none := by
  have hmain : ∀ k, metaLookup (pushRecord cfg now vis s p).meta k =
      (metaLookup p.meta k).or
        (metaLookup (pushDefaults cfg.userProfile vis) k) := by
    intro k
    exact metaLookup_jsSpread _ _ _
  refine ⟨hmain, ?_, ?_, ?_, rfl, ?_⟩
  · intro hnone
    rw [hmain, hnone, Option.none_or]
    simp [pushDefaults, metaLookup_cons]
  · intro pr hpr hnone
    rw [hmain, hnone, Option.none_or]
    simp [pushDefaults, metaLookup_cons, hpr, ageVal]
  · intro pr hpr hnone
    rw [hmain, hnone, Option.none_or]
    simp [pushDefaults, metaLookup_cons, hpr, occVal]
  · simp [syntheticExit, metaLookup_cons, metaLookup]

/-- Witness: the hypotheses of `push_meta_visibility` hold at concrete
inputs where the caller supplies no conflicting meta keys. -/
theorem push_meta_visibility_witness :
    metaLookup (pushRecord sampleCfg 0 "visible" sampleQueued
      { event := .focus }).meta "visibility" =
        some (.str "visible") ∧
    metaLookup (pushRecord sampleCfg 0 "visible" sampleQueued
      { event := .focus }).meta "age" = some (.int 30) :=
  ⟨(push_meta_visibility sampleCfg 0 "visible" sampleQueued
      { event := .focus }).2.1 rfl,
   (push_meta_visibility sampleCfg 0 "visible" sampleQueued
      { event := .focus }).2.2.1 ⟨30, "student"⟩ rfl rfl⟩

/-! ## Sequence-number bookkeeping -/

theorem flushStart_seq (s : MutState) : (flushStart s).seq = s.seq := by
  by_cases h : s.flushing <;> by_cases h2 : s.queue.isEmpty <;>
    simp [flushStart, h, h2]

theorem flushEnd_seq (o : DeliveryOutcome) (s : MutState) :
    (flushEnd o s).seq = s.seq := by
  unfold flushEnd
  split
  · rfl
  · split <;> rfl

/-- Each dispatched occurrence creates either no record (leaving the
counter alone) or exactly one record carrying the next counter value. -/
theorem step_seq (cfg : LoggerConfig) (s : MutState) (e : BEvent) :
    ((step cfg s e).2 = [] ∧ (step cfg s e).1.seq = s.seq) ∨
    ((step cfg s e).2.map (fun r => r.seq) = [s.seq + 1] ∧
      (step cfg s e).1.seq = s.seq + 1) := by
  cases e with
  | scrollEv env dom => right; simp [step, onScroll, pushP, pushRecord]
  | clickEv env x y target =>
    right; simp [step, onClick, pushP, pushRecord]
  | touchStartEv env touch n =>
    cases touch with
    | none => left; simp [step, onTouch]
    | some t =>
      right
      cases t
      simp [step, onTouch, pushP, pushRecord]
  | touchMoveEv env touch n =>
    cases touch with
    | none => left; simp [step, onTouch]
    | some t =>
      right
      cases t
      simp [step, onTouch, pushP, pushRecord]
  | touchEndEv env touch n =>
    cases touch with
    | none => left; simp [step, onTouch]
    | some t =>
      right
      cases t
      simp [step, onTouch, pushP, pushRecord]
  | visibilityEv env =>
    right; simp [step, onVisibilityChange, pushP, pushRecord]
  | focusEv env => right; simp [step, onFocusBlur, pushP, pushRecord]
  | blurEv env => right; simp [step, onFocusBlur, pushP, pushRecord]
  | inputEv env target =>
    cases target with
    | none => left; simp [step, onInput]
    | some t => right; simp [step, onInput, pushP, pushRecord]
  | popStateEv env url => right; simp [step, onPopState, pushP, pushRecord]
  | heartbeatEv env dom online =>
    right; simp [step, onHeartbeat, pushP, pushRecord]
  | flushTick => left; exact ⟨rfl, flushStart_seq s⟩
  | flushDone outcome => left; exact ⟨rfl, flushEnd_seq outcome s⟩
  | unloadEv env => right; simp [step, handleUnload, syntheticExit]
  | teardownEv env =>
    right
    refine ⟨by simp [step, pushP, pushRecord], ?_⟩
    show (flushStart _).seq = s.seq + 1
    rw [flushStart_seq]

/-- Over a whole run the created records carry exactly the next
`length`-many consecutive counter values, in order. -/
theorem run_seq (cfg : LoggerConfig) : ∀ (events : List BEvent)
    (s : MutState),
    (run cfg s events).2.map (fun r => r.seq) =
      List.range' (s.seq + 1) (run cfg s events).2.length ∧
    (run cfg s events).1.seq = s.seq + (run cfg s events).2.length := by
  intro events
  induction events with
  | nil => intro s; simp [run]
  | cons e es ih =>
    intro s
    rcases hstep : step cfg s e with ⟨s1, recs⟩
    have h2 := step_seq cfg s e
    rw [hstep] at h2
    have hrun : run cfg s (e :: es) =
        ((run cfg s1 es).1, recs ++ (run cfg s1 es).2) := by
      simp [run, hstep]
    rw [hrun]
    dsimp only
    rcases h2 with ⟨h0, hseq⟩ | ⟨h1, hseq⟩
    · dsimp only at h0 hseq
      rw [h0, List.nil_append]
      have := ih s1
      rw [hseq] at this
      exact this
    · dsimp only at h1 hseq
      obtain ⟨r, hr⟩ : ∃ r, recs = [r] := by
        cases recs with
        | nil => simp at h1
        | cons a l =>
          cases l with
          | nil => exact ⟨a, rfl⟩
          | cons b l2 => simp at h1
      subst hr
      simp only [List.map_cons, List.map_nil, List.cons.injEq,
        and_true] at h1
      have hih := ih s1
      rw [hseq] at hih
      constructor
      · simp only [List.cons_append, List.nil_append, List.map_cons,
          List.length_cons]
        rw [List.range'_succ]
        rw [h1]
        congr 1
        have := hih.1
        simpa using this
      · simp only [List.cons_append, List.nil_append, List.length_cons]
        have := hih.2
        omega

theorem mount_seq (cfg : LoggerConfig) (menv : MountEnv) (s : MutState) :
    (mount cfg menv s).2.map (fun r => r.seq) = [s.seq + 1] ∧
    (mount cfg menv s).1.seq = s.seq + 1 := by
  simp [mount, pushP, pushRecord]

/-! ## C1 — gapless sequence numbers -/

/-- C1: over one whole mounted lifetime — the `page_enter` push, every
listener-driven push, heartbeats, the teardown `page_exit`, and any
synthetic `page_exit` of the Unload Guard — the `seq` values of the
records produced, in creation order, are exactly `1, 2, ..., N'`: no
duplicates and no gaps, and assignment order equals push order. -/
theorem seq_gapless (cfg : LoggerConfig) (storage : Option String)
    (freshSession freshPage : String) (menv : MountEnv)
    (events : List BEvent) :
    ((lifecycle cfg storage freshSession freshPage menv events).2).map
        (fun r => r.seq) =
      List.range' 1
        (lifecycle cfg storage freshSession freshPage menv events).2.length := by
  unfold lifecycle
  dsimp only
  have hm := mount_seq cfg menv
    (initState storage freshSession freshPage menv.now).1
  have hs0 : (initState storage freshSession freshPage menv.now).1.seq = 0 :=
    rfl
  rw [hs0] at hm
  have hrun := run_seq cfg events
    (mount cfg menv (initState storage freshSession freshPage menv.now).1).1
  rw [hm.2] at hrun
  obtain ⟨r, hr⟩ : ∃ r,
      (mount cfg menv
        (initState storage freshSession freshPage menv.now).1).2 = [r] := by
    rcases hc : (mount cfg menv
        (initState storage freshSession freshPage menv.now).1).2 with
      _ | ⟨a, _ | ⟨b, l2⟩⟩
    · rw [hc] at hm
      simp at hm
    · exact ⟨a, rfl⟩
    · rw [hc] at hm
      have := hm.1
      simp at this
  rw [hr] at hm ⊢
  have hr1 : r.seq = 1 := by
    have := hm.1
    simpa using this
  simp only [List.cons_append, List.nil_append, List.map_cons,
    List.length_cons, List.range'_succ]
  rw [hr1]
  congr 1
  have := hrun.1
  simpa using this

/-! ## C4 — the Unload Guard's single send -/

/-- C4: triggered with the queue holding `k` pending records, the
Unload Guard hands its one beacon send a payload of `k + 1` records —
one synthetic `page_exit` carrying the next fresh `seq`, the dwell
time and the running-maximum depth, concatenated in front of the `k`
pending records — and the queue is empty immediately after dispatch;
the transmission outcome is never consulted (`handleUnload` does not
even take one). -/
theorem unload_guard_payload (cfg : LoggerConfig) (now : Int)
    (s : MutState) :
    (handleUnload cfg now s).2.length = s.queue.length + 1 ∧
    (handleUnload cfg now s).2 = syntheticExit cfg now s :: s.queue ∧
    (syntheticExit cfg now s).seq = s.seq + 1 ∧
    (syntheticExit cfg now s).event = .page_exit ∧
    (syntheticExit cfg now s).dwellMs = some (now - s.enterAt) ∧
    (syntheticExit cfg now s).depth = some (fmtPct s.maxDepth) ∧
    (handleUnload cfg now s).1.queue = [] ∧
    (handleUnload cfg now s).1.seq = s.seq + 1 := by
  refine ⟨?_, rfl, rfl, rfl, rfl, rfl, rfl, rfl⟩
  simp [handleUnload]

/-! ## C7 — durable session identity, fresh page-session identity -/

theorem flushStart_pageSessionId (s : MutState) :
    (flushStart s).pageSessionId = s.pageSessionId := by
  by_cases h : s.flushing <;> by_cases h2 : s.queue.isEmpty <;>
    simp [flushStart, h, h2]

theorem flushEnd_pageSessionId (o : DeliveryOutcome) (s : MutState) :
    (flushEnd o s).pageSessionId = s.pageSessionId := by
  unfold flushEnd
  split
  · rfl
  · split <;> rfl

theorem step_pageSessionId (cfg : LoggerConfig) (s : MutState)
    (e : BEvent) : (step cfg s e).1.pageSessionId = s.pageSessionId := by
  cases e with
  | touchStartEv env touch n =>
    cases touch with
    | none => rfl
    | some xy => cases xy; rfl
  | touchMoveEv env touch n =>
    cases touch with
    | none => rfl
    | some xy => cases xy; rfl
  | touchEndEv env touch n =>
    cases touch with
    | none => rfl
    | some xy => cases xy; rfl
  | inputEv env target =>
    cases target with
    | none => rfl
    | some t => rfl
  | flushTick => exact flushStart_pageSessionId s
  | flushDone o => exact flushEnd_pageSessionId o s
  | teardownEv env =>
    show (flushStart _).pageSessionId = _
    rw [flushStart_pageSessionId]
  | _ => rfl

theorem run_pageSessionId (cfg : LoggerConfig) : ∀ (events : List BEvent)
    (s : MutState), (run cfg s events).1.pageSessionId = s.pageSessionId := by
  intro events
  induction events with
  | nil => intro s; rfl
  | cons e es ih =>
    intro s
    rcases hstep : step cfg s e with ⟨s1, recs⟩
    have hpg := step_pageSessionId cfg s e
    rw [hstep] at hpg
    have hrun : run cfg s (e :: es) =
        ((run cfg s1 es).1, recs ++ (run cfg s1 es).2) := by
      simp [run, hstep]
    rw [hrun]
    dsimp only
    rw [ih s1]
    exact hpg

/-- C7: mounting twice in the same tab yields the same `sessionId`
(read from the per-tab storage if present, else generated and stored
on the first mount) but two distinct `pageSessionId` values whenever
the fresh identifiers generated at the two mounts differ; and the
`pageSessionId` of an instance never changes during its lifetime. -/
theorem session_identity (storage : Option String)
    (fs1 fp1 fs2 fp2 : String) (now1 now2 : Int) :
    (initState storage fs1 fp1 now1).1.sessionId =
      (initState (initState storage fs1 fp1 now1).2 fs2 fp2
        now2).1.sessionId ∧
    (fp1 ≠ fp2 →
      (initState storage fs1 fp1 now1).1.pageSessionId ≠
        (initState (initState storage fs1 fp1 now1).2 fs2 fp2
          now2).1.pageSessionId) ∧
    (∀ (cfg : LoggerConfig) (menv : MountEnv) (events : List BEvent),
      (run cfg (mount cfg menv (initState storage fs1 fp1 now1).1).1
          events).1.pageSessionId =
        (initState storage fs1 fp1 now1).1.pageSessionId) := by
  refine ⟨?_, fun h => h, ?_⟩
  · rcases storage with _ | sid <;> rfl
  · intro cfg menv events
    rw [run_pageSessionId]
    rfl

/-- Witness: two concrete mounts with an initially empty storage cell
share their `sessionId` and have distinct `pageSessionId` values. -/
theorem session_identity_witness :
    (initState none "s_1_a" "pg_1_a" 0).1.sessionId =
      (initState (initState none "s_1_a" "pg_1_a" 0).2 "s_2_b" "pg_2_b"
        5).1.sessionId ∧
    (initState none "s_1_a" "pg_1_a" 0).1.pageSessionId ≠
      (initState (initState none "s_1_a" "pg_1_a" 0).2 "s_2_b" "pg_2_b"
        5).1.pageSessionId :=
  ⟨(session_identity none "s_1_a" "pg_1_a" "s_2_b" "pg_2_b" 0 5).1,
   (session_identity none "s_1_a" "pg_1_a" "s_2_b" "pg_2_b" 0 5).2.1
     (by decide)⟩

/-! ## Flush mechanics -/

theorem flushStart_of_flushing (s : MutState) (h : s.flushing = true) :
    flushStart s = s := by
  unfold flushStart
  rw [if_pos h]

theorem flushStart_drains (s : MutState) (h1 : s.flushing = false)
    (h2 : s.queue ≠ []) :
    flushStart s =
      { s with queue := [], flushing := true, inFlight := some s.queue } := by
  unfold flushStart
  rw [if_neg (by simp [h1])]
  dsimp only
  rw [if_neg (by simp [List.isEmpty_iff, h2])]

theorem flushEnd_requeue (o : DeliveryOutcome) (s : MutState)
    (batch : List EventPayload) (hin : s.inFlight = some batch)
    (hthrow : sendEventsThrows o = true) :
    flushEnd o s =
      { s with queue := batch ++ s.queue, flushing := false,
               inFlight := none } := by
  unfold flushEnd
  rw [hin]
  dsimp only
  rw [if_pos hthrow]

theorem flushEnd_ack (o : DeliveryOutcome) (s : MutState)
    (batch : List EventPayload) (hin : s.inFlight = some batch)
    (hok : sendEventsThrows o = false) :
    flushEnd o s = { s with flushing := false, inFlight := none } := by
  unfold flushEnd
  rw [hin]
  dsimp only
  rw [if_neg (by simp [hok])]

/-! ## C2 — what a failed delivery requeues -/

/-- C2 (counterexample to the claim as stated): with one record
drained and in flight, a non-success HTTP response — enumerated by the
spec as a delivery failure — leaves the queue empty: the batch is not
reinserted, because `sendEvents` never inspects `response.ok` and
`fetch` only rejects on network errors. -/
theorem flush_httpError_drops_batch :
    (flushStart sampleQueued).inFlight = some [sampleRecord] ∧
    (flushEnd .resolvedHttpError (flushStart sampleQueued)).queue = [] ∧
    (flushEnd .resolvedHttpError (flushStart sampleQueued)).queue ≠
      [sampleRecord] := by
  refine ⟨rfl, rfl, ?_⟩
  rw [show (flushEnd .resolvedHttpError (flushStart sampleQueued)).queue
      = [] from rfl]
  simp

/-- C2 (amended): for every batch in flight, if the `sendEvents`
promise rejects (network error or thrown exception) the entire batch
is reinserted at the front of the queue, in order, nothing discarded;
a response that resolves — success or not — is treated as delivered
and the batch is discarded. -/
theorem flush_failure_requeues (s : MutState)
    (batch : List EventPayload) (hin : s.inFlight = some batch) :
    (sendEventsThrows .rejected = true ∧
      (flushEnd .rejected s).queue = batch ++ s.queue) ∧
    (sendEventsThrows .resolvedHttpError = false ∧
      (flushEnd .resolvedHttpError s).queue = s.queue) ∧
    (sendEventsThrows .resolvedOk = false ∧
      (flushEnd .resolvedOk s).queue = s.queue) := by
  refine ⟨⟨rfl, ?_⟩, ⟨rfl, ?_⟩, ⟨rfl, ?_⟩⟩
  · rw [flushEnd_requeue .rejected s batch hin rfl]
  · rw [flushEnd_ack .resolvedHttpError s batch hin rfl]
  · rw [flushEnd_ack .resolvedOk s batch hin rfl]

/-- Witness: a concrete rejected delivery puts its one-record batch
back at the front of the queue. -/
theorem flush_failure_requeues_witness :
    (flushEnd .rejected (flushStart sampleQueued)).queue =
      [sampleRecord] ++ (flushStart sampleQueued).queue :=
  (flush_failure_requeues (flushStart sampleQueued) [sampleRecord]
    rfl).1.2

/-! ## C3 — requeue round trip -/

theorem step_queue (cfg : LoggerConfig) (s : MutState) (e : BEvent)
    (hf : s.flushing = true) (hnd : noDrain e = true) :
    (step cfg s e).1.queue = s.queue ++ (step cfg s e).2 ∧
    (step cfg s e).1.flushing = true ∧
    (step cfg s e).1.inFlight = s.inFlight := by
  cases e with
  | scrollEv env dom => exact ⟨rfl, hf, rfl⟩
  | clickEv env x y target => exact ⟨rfl, hf, rfl⟩
  | touchStartEv env touch n =>
    cases touch with
    | none => exact ⟨by simp [step, onTouch], hf, rfl⟩
    | some xy => cases xy; exact ⟨rfl, hf, rfl⟩
  | touchMoveEv env touch n =>
    cases touch with
    | none => exact ⟨by simp [step, onTouch], hf, rfl⟩
    | some xy => cases xy; exact ⟨rfl, hf, rfl⟩
  | touchEndEv env touch n =>
    cases touch with
    | none => exact ⟨by simp [step, onTouch], hf, rfl⟩
    | some xy => cases xy; exact ⟨rfl, hf, rfl⟩
  | visibilityEv env => exact ⟨rfl, hf, rfl⟩
  | focusEv env => exact ⟨rfl, hf, rfl⟩
  | blurEv env => exact ⟨rfl, hf, rfl⟩
  | inputEv env target =>
    cases target with
    | none => exact ⟨by simp [step, onInput], hf, rfl⟩
    | some t => exact ⟨rfl, hf, rfl⟩
  | popStateEv env url => exact ⟨rfl, hf, rfl⟩
  | heartbeatEv env dom online => exact ⟨rfl, hf, rfl⟩
  | flushTick =>
    refine ⟨?_, ?_, ?_⟩
    · show (flushStart s).queue = s.queue ++ []
      rw [flushStart_of_flushing s hf, List.append_nil]
    · show (flushStart s).flushing = true
      rw [flushStart_of_flushing s hf]
      exact hf
    · show (flushStart s).inFlight = s.inFlight
      rw [flushStart_of_flushing s hf]
  | flushDone o => simp [noDrain] at hnd
  | unloadEv env => simp [noDrain] at hnd
  | teardownEv env =>
    have hx := flushStart_of_flushing
      (pushP cfg env.now env.vis s
        { event := .page_exit
          timestamp := some env.now
          dwellMs := some (env.now - s.enterAt)
          depth := some (fmtPct s.maxDepth) }).1 hf
    refine ⟨?_, ?_, ?_⟩
    · show (flushStart (pushP cfg env.now env.vis s
        { event := .page_exit
          timestamp := some env.now
          dwellMs := some (env.now - s.enterAt)
          depth := some (fmtPct s.maxDepth) }).1).queue =
          s.queue ++ (step cfg s (.teardownEv env)).2
      rw [hx]
      rfl
    · show (flushStart (pushP cfg env.now env.vis s
        { event := .page_exit
          timestamp := some env.now
          dwellMs := some (env.now - s.enterAt)
          depth := some (fmtPct s.maxDepth) }).1).flushing = true
      rw [hx]
      exact hf
    · show (flushStart (pushP cfg env.now env.vis s
        { event := .page_exit
          timestamp := some env.now
          dwellMs := some (env.now - s.enterAt)
          depth := some (fmtPct s.maxDepth) }).1).inFlight = s.inFlight
      rw [hx]
      rfl

theorem run_queue (cfg : LoggerConfig) : ∀ (events : List BEvent)
    (s : MutState), s.flushing = true →
    (∀ e ∈ events, noDrain e = true) →
    (run cfg s events).1.queue = s.queue ++ (run cfg s events).2 ∧
    (run cfg s events).1.flushing = true ∧
    (run cfg s events).1.inFlight = s.inFlight := by
  intro events
  induction events with
  | nil =>
    intro s hf _
    exact ⟨by simp [run], hf, rfl⟩
  | cons e es ih =>
    intro s hf hnd
    rcases hstep : step cfg s e with ⟨s1, recs⟩
    have hq := step_queue cfg s e hf (hnd e (by simp))
    rw [hstep] at hq
    have hrun : run cfg s (e :: es) =
        ((run cfg s1 es).1, recs ++ (run cfg s1 es).2) := by
      simp [run, hstep]
    rw [hrun]
    dsimp only
    dsimp only at hq
    have ihs := ih s1 hq.2.1 (fun e' he' => hnd e' (by simp [he']))
    refine ⟨?_, ihs.2.1, ?_⟩
    · rw [ihs.1, hq.1, List.append_assoc]
    · rw [ihs.2.2, hq.2.2]

/-- C3: a batch drained from a non-empty queue and requeued at the
front after a failed send is yielded by the next drain in its original
relative order, with no loss and no duplication, ahead of every record
pushed between the drain and the requeue. -/
theorem requeue_round_trip (cfg : LoggerConfig) (s : MutState)
    (events : List BEvent) (o : DeliveryOutcome)
    (h1 : s.flushing = false) (h2 : s.inFlight = none)
    (h3 : s.queue ≠ []) (h4 : sendEventsThrows o = true)
    (h5 : ∀ e ∈ events, noDrain e = true) :
    (flushStart s).inFlight = some s.queue ∧
    (flushEnd o (run cfg (flushStart s) events).1).queue =
      s.queue ++ (run cfg (flushStart s) events).2 ∧
    (flushStart (flushEnd o (run cfg (flushStart s) events).1)).inFlight =
      some (s.queue ++ (run cfg (flushStart s) events).2) := by
  have hs1 := flushStart_drains s h1 h3
  have hfl : (flushStart s).flushing = true := by rw [hs1]
  have hin : (flushStart s).inFlight = some s.queue := by rw [hs1]
  have hrq := run_queue cfg events (flushStart s) hfl h5
  have hq2 : (run cfg (flushStart s) events).1.queue =
      (run cfg (flushStart s) events).2 := by
    rw [hrq.1, hs1]
    rfl
  have hin2 : (run cfg (flushStart s) events).1.inFlight = some s.queue :=
    by rw [hrq.2.2, hin]
  have hend := flushEnd_requeue o (run cfg (flushStart s) events).1
    s.queue hin2 h4
  have hendq : (flushEnd o (run cfg (flushStart s) events).1).queue =
      s.queue ++ (run cfg (flushStart s) events).2 := by
    rw [hend]
    dsimp only
    rw [hq2]
  refine ⟨hin, hendq, ?_⟩
  have hendfl : (flushEnd o (run cfg (flushStart s) events).1).flushing =
      false := by rw [hend]
  have hendne : (flushEnd o (run cfg (flushStart s) events).1).queue ≠ [] := by
    rw [hendq]
    intro hc
    exact h3 (List.append_eq_nil.mp hc).1
  rw [flushStart_drains _ hendfl hendne, hendq]

/-- Witness: the concrete one-record batch of `sampleQueued`, drained,
rejected while one focus record is pushed, then drained again, comes
back in front of the new record. -/
theorem requeue_round_trip_witness :
    (flushStart
      (flushEnd .rejected
        (run sampleCfg (flushStart sampleQueued) sampleEvents).1)).inFlight =
      some (sampleQueued.queue ++
        (run sampleCfg (flushStart sampleQueued) sampleEvents).2) :=
  (requeue_round_trip sampleCfg sampleQueued sampleEvents .rejected rfl rfl
    (by simp [sampleQueued]) rfl (by decide)).2.2


/-! ## C6 — single-flight flushing -/

/-- `flushStart` preserves the link between the `flushing` guard and an
uncompleted delivery. -/
theorem flushStart_flight (s1 : MutState)
    (h : s1.inFlight.isSome = true → s1.flushing = true) :
    (flushStart s1).inFlight.isSome = true →
      (flushStart s1).flushing = true := by
  by_cases hf : s1.flushing
  · rw [flushStart_of_flushing s1 hf]
    exact h
  · by_cases hq : s1.queue.isEmpty
    · have he : flushStart s1 = { s1 with queue := [] } := by
        unfold flushStart
        rw [if_neg (by simp [hf])]
        dsimp only
        rw [if_pos hq]
      rw [he]
      exact h
    · have he := flushStart_drains s1 (by simpa using hf)
        (by simpa [List.isEmpty_iff] using hq)
      rw [he]
      intro _
      rfl

/-- Every dispatched occurrence preserves the guard/delivery link. -/
theorem step_flight_invariant (cfg : LoggerConfig) (s : MutState)
    (e : BEvent) (h : s.inFlight.isSome = true → s.flushing = true) :
    (step cfg s e).1.inFlight.isSome = true →
      (step cfg s e).1.flushing = true := by
  cases e with
  | touchStartEv env touch n =>
    cases touch with
    | none => exact h
    | some xy => cases xy; exact h
  | touchMoveEv env touch n =>
    cases touch with
    | none => exact h
    | some xy => cases xy; exact h
  | touchEndEv env touch n =>
    cases touch with
    | none => exact h
    | some xy => cases xy; exact h
  | inputEv env target =>
    cases target with
    | none => exact h
    | some t => exact h
  | flushTick => exact flushStart_flight s h
  | flushDone o =>
    show (flushEnd o s).inFlight.isSome = true → (flushEnd o s).flushing = true
    unfold flushEnd
    rcases hin : s.inFlight with _ | batch
    · exact h
    · dsimp only
      simp
  | teardownEv env => exact flushStart_flight _ h
  | _ => exact h



theorem run_flight_invariant (cfg : LoggerConfig) : ∀ (events : List BEvent)
    (s : MutState), (s.inFlight.isSome = true → s.flushing = true) →
    ((run cfg s events).1.inFlight.isSome = true →
      (run cfg s events).1.flushing = true) := by
  intro events
  induction events with
  | nil => intro s h; exact h
  | cons e es ih =>
    intro s h
    rcases hstep : step cfg s e with ⟨s1, recs⟩
    have hi := step_flight_invariant cfg s e h
    rw [hstep] at hi
    have hrun : run cfg s (e :: es) =
        ((run cfg s1 es).1, recs ++ (run cfg s1 es).2) := by
      simp [run, hstep]
    rw [hrun]
    exact ih s1 hi

/-- C6: per instance at most one flush is in flight: on any reachable
state of a mounted lifetime in which a delivery has not completed, a
scheduler tick leaves the state untouched — no drain and no send. -/
theorem single_flight (cfg : LoggerConfig) (storage : Option String)
    (fs fp : String) (menv : MountEnv) (events : List BEvent)
    (h : ((lifecycle cfg storage fs fp menv events).1).inFlight.isSome =
      true) :
    flushStart (lifecycle cfg storage fs fp menv events).1 =
      (lifecycle cfg storage fs fp menv events).1 := by
  have hinv : ((lifecycle cfg storage fs fp menv events).1).inFlight.isSome =
      true → ((lifecycle cfg storage fs fp menv events).1).flushing = true := by
    unfold lifecycle
    dsimp only
    exact run_flight_invariant cfg events _
      (fun hx => absurd (show (false : Bool) = true from hx) (by simp))
  exact flushStart_of_flushing _ (hinv h)

/-- Witness: after a mount and one scheduler tick the `page_enter`
record is in flight, and a second tick changes nothing. -/
theorem single_flight_witness :
    flushStart (lifecycle sampleCfg none "s_1_a" "pg_1_a" sampleMountEnv
      [.flushTick]).1 =
      (lifecycle sampleCfg none "s_1_a" "pg_1_a" sampleMountEnv
        [.flushTick]).1 :=
  single_flight sampleCfg none "s_1_a" "pg_1_a" sampleMountEnv [.flushTick]
    rfl



/-! ## C8 — monotone running-maximum depth -/

theorem maxDepthVals_append (l1 l2 : List EventPayload) :
    maxDepthVals (l1 ++ l2) = maxDepthVals l1 ++ maxDepthVals l2 := by
  simp [maxDepthVals, List.filterMap_append]

theorem flushStart_maxDepth (s : MutState) :
    (flushStart s).maxDepth = s.maxDepth := by
  by_cases h : s.flushing <;> by_cases h2 : s.queue.isEmpty <;>
    simp [flushStart, h, h2]

theorem flushEnd_maxDepth (o : DeliveryOutcome) (s : MutState) :
    (flushEnd o s).maxDepth = s.maxDepth := by
  unfold flushEnd
  split
  · rfl
  · split <;> rfl

/-- Each dispatched occurrence either records no `maxDepthPct` and
leaves the running maximum unchanged, or records exactly the rounded
new running maximum, which never drops below the old one. -/
theorem step_maxDepth (cfg : LoggerConfig) (s : MutState) (e : BEvent) :
    (maxDepthVals (step cfg s e).2 = [] ∧
      (step cfg s e).1.maxDepth = s.maxDepth) ∨
    (maxDepthVals (step cfg s e).2 =
        [round2 (step cfg s e).1.maxDepth] ∧
      s.maxDepth ≤ (step cfg s e).1.maxDepth) := by
  cases e with
  | scrollEv env dom =>
    right
    refine ⟨?_, le_max_left _ _⟩
    simp [step, onScroll, pushP, maxDepthVals, List.filterMap_cons,
      metaLookup_pushRecord, metaLookup_jsSpread, metaLookup_cons,
      metaLookup_nil, pushDefaults]
  | heartbeatEv env dom online =>
    right
    refine ⟨?_, le_max_left _ _⟩
    simp [step, onHeartbeat, pushP, maxDepthVals, List.filterMap_cons,
      metaLookup_pushRecord, metaLookup_jsSpread, metaLookup_cons,
      metaLookup_nil, pushDefaults]
  | clickEv env x y target =>
    left
    refine ⟨?_, rfl⟩
    simp [step, onClick, pushP, maxDepthVals, List.filterMap_cons,
      metaLookup_pushRecord, metaLookup_jsSpread, metaLookup_cons,
      metaLookup_nil, pushDefaults, targetMetaAsMeta]
  | touchStartEv env touch n =>
    left
    cases touch with
    | none => exact ⟨rfl, rfl⟩
    | some xy =>
      cases xy
      refine ⟨?_, rfl⟩
      simp [step, onTouch, pushP, maxDepthVals, List.filterMap_cons,
        metaLookup_pushRecord, metaLookup_jsSpread, metaLookup_cons,
        metaLookup_nil, pushDefaults]
  | touchMoveEv env touch n =>
    left
    cases touch with
    | none => exact ⟨rfl, rfl⟩
    | some xy =>
      cases xy
      refine ⟨?_, rfl⟩
      simp [step, onTouch, pushP, maxDepthVals, List.filterMap_cons,
        metaLookup_pushRecord, metaLookup_jsSpread, metaLookup_cons,
        metaLookup_nil, pushDefaults]
  | touchEndEv env touch n =>
    left
    cases touch with
    | none => exact ⟨rfl, rfl⟩
    | some xy =>
      cases xy
      refine ⟨?_, rfl⟩
      simp [step, onTouch, pushP, maxDepthVals, List.filterMap_cons,
        metaLookup_pushRecord, metaLookup_jsSpread, metaLookup_cons,
        metaLookup_nil, pushDefaults]
  | visibilityEv env =>
    left
    refine ⟨?_, rfl⟩
    simp [step, onVisibilityChange, pushP, maxDepthVals, List.filterMap_cons,
      metaLookup_pushRecord, metaLookup_jsSpread, metaLookup_cons,
      metaLookup_nil, pushDefaults]
  | focusEv env =>
    left
    refine ⟨?_, rfl⟩
    simp [step, onFocusBlur, pushP, maxDepthVals, List.filterMap_cons,
      metaLookup_pushRecord, metaLookup_jsSpread, metaLookup_cons,
      metaLookup_nil, pushDefaults]
  | blurEv env =>
    left
    refine ⟨?_, rfl⟩
    simp [step, onFocusBlur, pushP, maxDepthVals, List.filterMap_cons,
      metaLookup_pushRecord, metaLookup_jsSpread, metaLookup_cons,
      metaLookup_nil, pushDefaults]
  | inputEv env target =>
    left
    cases target with
    | none => exact ⟨rfl, rfl⟩
    | some t =>
      refine ⟨?_, rfl⟩
      simp [step, onInput, pushP, maxDepthVals, List.filterMap_cons,
        metaLookup_pushRecord, metaLookup_jsSpread, metaLookup_cons,
        metaLookup_nil, pushDefaults]
  | popStateEv env url =>
    left
    refine ⟨?_, rfl⟩
    simp [step, onPopState, pushP, maxDepthVals, List.filterMap_cons,
      metaLookup_pushRecord, metaLookup_jsSpread, metaLookup_cons,
      metaLookup_nil, pushDefaults]
  | flushTick => exact Or.inl ⟨rfl, flushStart_maxDepth s⟩
  | flushDone o => exact Or.inl ⟨rfl, flushEnd_maxDepth o s⟩
  | unloadEv env =>
    left
    refine ⟨?_, rfl⟩
    simp [step, syntheticExit, maxDepthVals, List.filterMap_cons,
      metaLookup_cons, metaLookup_nil]
  | teardownEv env =>
    left
    constructor
    · show maxDepthVals (pushP cfg env.now env.vis s
        { event := .page_exit
          timestamp := some env.now
          dwellMs := some (env.now - s.enterAt)
          depth := some (fmtPct s.maxDepth) }).2 = []
      simp [pushP, maxDepthVals, List.filterMap_cons,
        metaLookup_pushRecord, metaLookup_cons, metaLookup_nil,
        pushDefaults]
    · show (flushStart _).maxDepth = s.maxDepth
      rw [flushStart_maxDepth]

theorem mount_maxDepthVals (cfg : LoggerConfig) (menv : MountEnv)
    (s : MutState) : maxDepthVals (mount cfg menv s).2 = [] := by
  simp [mount, pushP, maxDepthVals, List.filterMap_cons,
    metaLookup_pushRecord, metaLookup_cons, metaLookup_nil, pushDefaults]

theorem run_maxDepth (cfg : LoggerConfig) : ∀ (events : List BEvent)
    (s : MutState),
    List.Chain' (· ≤ ·)
      (round2 s.maxDepth :: maxDepthVals (run cfg s events).2) := by
  intro events
  induction events with
  | nil => intro s; simp [run, maxDepthVals]
  | cons e es ih =>
    intro s
    rcases hstep : step cfg s e with ⟨s1, recs⟩
    have hmd := step_maxDepth cfg s e
    rw [hstep] at hmd
    have hrun : run cfg s (e :: es) =
        ((run cfg s1 es).1, recs ++ (run cfg s1 es).2) := by
      simp [run, hstep]
    rw [hrun]
    dsimp only
    rw [maxDepthVals_append]
    rcases hmd with ⟨h0, heq⟩ | ⟨h1, hle⟩
    · dsimp only at h0 heq
      rw [h0, List.nil_append, ← heq]
      exact ih s1
    · dsimp only at h1 hle
      rw [h1]
      exact List.chain'_cons.mpr ⟨round2_mono hle, ih s1⟩

/-- C8: over a whole mounted lifetime — hence over every sequence of
scroll and heartbeat events, the only occurrences that record it — the
`meta.maxDepthPct` values of the produced records form a
non-decreasing sequence. -/
theorem maxDepth_monotone (cfg : LoggerConfig) (storage : Option String)
    (fs fp : String) (menv : MountEnv) (events : List BEvent) :
    List.Chain' (· ≤ ·)
      (maxDepthVals (lifecycle cfg storage fs fp menv events).2) := by
  unfold lifecycle
  dsimp only
  rw [maxDepthVals_append, mount_maxDepthVals, List.nil_append]
  exact (run_maxDepth cfg events
    (mount cfg menv (initState storage fs fp menv.now).1).1).tail


end WebSim
